import Mathlib

/-!
Verification development for the aiocouchdb client library: the nested
MIME multipart decoder, the attachment byte-stream reader, the payload
parser of the HTTP client layer, and the small validation/identifier
helpers of the document API.

Byte strings are modelled as `List Char` (all wire data in scope is
ASCII).  Asynchronous reads are modelled by explicit state passing: an
operation takes the stream and returns the value together with the
advanced stream.  Loops written as `while` in the source carry an
explicit fuel argument; fuel exhaustion is reported as an error and
never occurs on the inputs the theorems evaluate.
-/

/-- Byte strings, modelled as lists of characters. -/
abbrev Bytes := List Char

/-- One CRLF pair. -/
def crlf : Bytes := ['\r', '\n']

/-- Two dashes, the delimiter lead-in of multipart framing. -/
def dashdash : Bytes := ['-', '-']

/-- Strip trailing whitespace, as the source's `bytes.rstrip()`. -/
def rstripWS (l : Bytes) : Bytes :=
  (l.reverse.dropWhile Char.isWhitespace).reverse

/-- Strip trailing CR and LF only, as the source's `rstrip(b'\x5cr\x5cn')`. -/
def rstripCRLF (l : Bytes) : Bytes :=
  (l.reverse.dropWhile (fun c => c = '\r' ∨ c = '\n')).reverse

/-- Strip whitespace at both ends, as the source's `bytes.strip()`. -/
def stripWS (l : Bytes) : Bytes :=
  rstripWS (l.dropWhile Char.isWhitespace)

/-- A list starts with itself, whatever follows. -/
theorem isPrefixOfAppendSelf (x t : Bytes) : x.isPrefixOf (x ++ t) = true := by
  induction x with
  | nil => simp [List.isPrefixOf]
  | cons c cs ih => simp [List.isPrefixOf, ih]

/-!
## The mocked response content stream

The attachment-reader unit tests drive `AttachmentReader` over a mocked
`resp.content` whose `read`/`readline` pop one queued chunk per call and
whose `at_eof` flag flips to true exactly when a read finds the queue
empty (see `prepare_response` in `src/aiocouchdb/tests/utils.py`, which
is part of the repository).  That mock is itself the model of the
transport's chunk-delimited stream used below.
-/

/-- State of the mocked underlying content stream: the queue of pending
chunks (or lines) and the end-of-stream flag. -/
structure MockContent where
  queue : List Bytes
  atEof : Bool
deriving DecidableEq, Repr

/-- `content.read(size)` of the mocked stream: pops the next queued
chunk regardless of `size`; on an empty queue returns the empty chunk
and raises the end-of-stream flag. -/
def MockContent.read (st : MockContent) (_size : Nat) : Bytes × MockContent :=
  match st.queue with
  | c :: rest => (c, { queue := rest, atEof := false })
  | [] => ([], { st with atEof := true })

/-- `content.readline()` of the mocked stream: same popping behaviour
over the queue of lines. -/
def MockContent.readlineM (st : MockContent) : Bytes × MockContent :=
  match st.queue with
  | c :: rest => (c, { queue := rest, atEof := false })
  | [] => ([], { st with atEof := true })

/-!
## AttachmentReader

Modelled from the spec: `AttachmentReader` of `aiocouchdb/v1/attachment.py`
is absent from `src/` (only its unit tests are present), so its
`closed`/`close`/`readall`/`readlines` contract of spec §4.6 is modelled
here; every line-level detail is pinned by `AttachmentReaderTestCase` in
`src/aiocouchdb/v1/tests/test_attachment.py`.
-/

/-- The reader's view of its response: the content stream plus a counter
of `resp.close()` calls issued on the underlying connection. -/
structure AttachmentReaderState where
  content : MockContent
  closeCalls : Nat
deriving DecidableEq, Repr

/-- Modelled from the spec: `AttachmentReader.closed` (spec §4.6), a
derived property equal to the underlying stream's end-of-stream flag. -/
def AttachmentReaderState.closed (a : AttachmentReaderState) : Bool :=
  a.content.atEof

/-- Modelled from the spec: `AttachmentReader.close` (spec §4.6): a
no-op when the stream already signals end-of-stream, otherwise it closes
(aborts) the underlying connection via `resp.close()`. -/
def AttachmentReaderState.close (a : AttachmentReaderState) : AttachmentReaderState :=
  if a.closed then a else { a with closeCalls := a.closeCalls + 1 }

/-- Modelled from the spec: the loop of `AttachmentReader.readall`
(spec §4.6): while the stream has not reported end-of-stream, issue an
underlying `content.read` with the fixed internal chunk size and append
the chunk.  Returns the buffer, the final stream and the trace of sizes
requested from the underlying stream. -/
def readallLoop (fuel : Nat) (st : MockContent) (acc : Bytes) (sizes : List Nat) :
    Option (Bytes × MockContent × List Nat) :=
  if st.atEof then some (acc, st, sizes)
  else
    match fuel with
    | 0 => none
    | fuel + 1 =>
      let (chunk, st') := st.read 8192
      readallLoop fuel st' (acc ++ chunk) (sizes ++ [8192])

/-- Modelled from the spec: `AttachmentReader.readall` (spec §4.6). -/
def AttachmentReaderState.readall (fuel : Nat) (a : AttachmentReaderState) :
    Option (Bytes × AttachmentReaderState × List Nat) :=
  match readallLoop fuel a.content [] [] with
  | some (buf, st, sizes) => some (buf, { a with content := st }, sizes)
  | none => none

/-- Modelled from the spec: `AttachmentReader.readline` (spec §4.6)
forwards to the underlying stream's `readline`. -/
def AttachmentReaderState.readlineA (a : AttachmentReaderState) :
    Bytes × AttachmentReaderState :=
  let (line, st) := a.content.readlineM
  (line, { a with content := st })

/-- Modelled from the spec: the loop of `AttachmentReader.readlines`
(spec §4.6): repeatedly `readline()`; stop on an empty line
(end-of-stream); with a positive `hint`, stop once the accumulated byte
size of the collected lines reaches `hint` — the standard io semantics
pinned by `test_readlines_hint` (hint counts bytes, not lines). -/
def hintReached (hint : Option Int) (size : Nat) : Bool :=
  match hint with
  | some h => decide (0 < h ∧ h ≤ (size : Int))
  | none => false

/-- Modelled from the spec: the `readline` loop body of
`AttachmentReader.readlines` (spec §4.6), stopping on an empty line or
once `hintReached` on the accumulated size. -/
def readlinesLoop (fuel : Nat) (hint : Option Int) (a : AttachmentReaderState)
    (acc : List Bytes) (size : Nat) : Option (List Bytes × AttachmentReaderState) :=
  match fuel with
  | 0 => none
  | fuel + 1 =>
    let (line, a') := a.readlineA
    if line = [] then some (acc, a')
    else
      let acc' := acc ++ [line]
      let size' := size + line.length
      if hintReached hint size' then some (acc', a')
      else readlinesLoop fuel hint a' acc' size'

/-- Modelled from the spec: `AttachmentReader.readlines` (spec §4.6). -/
def AttachmentReaderState.readlines (fuel : Nat) (hint : Option Int)
    (a : AttachmentReaderState) : Option (List Bytes × AttachmentReaderState) :=
  readlinesLoop fuel hint a [] 0

/-- Reference function for the amended readlines claim: the shortest
prefix of the available lines whose cumulative byte size reaches `h`
(all lines when the total stays below `h`).  This follows the spec's
words for the amended statement, to be compared with the loop above. -/
def takeBySize (h : Int) : List Bytes → List Bytes
  | [] => []
  | l :: ls => l :: (if h ≤ (l.length : Int) then [] else takeBySize (h - l.length) ls)

/-- A fresh mocked stream holding the given chunks. -/
def mkContent (chunks : List Bytes) : MockContent :=
  { queue := chunks, atEof := false }

/-- A fresh attachment reader over the given queued chunks. -/
def mkAttachmentReader (chunks : List Bytes) : AttachmentReaderState :=
  { content := mkContent chunks, closeCalls := 0 }

/-- Unfolding lemma: the readall loop over a fresh (non-eof) stream of
queued chunks drains every chunk with 8192-byte reads and needs exactly
one extra read to observe end-of-stream. -/
theorem readallLoop_spec (chunks : List Bytes) :
    ∀ (fuel : Nat) (acc : Bytes) (sizes : List Nat),
      chunks.length + 1 ≤ fuel →
      readallLoop fuel (mkContent chunks) acc sizes =
        some (acc ++ chunks.flatten, ⟨[], true⟩,
              sizes ++ List.replicate (chunks.length + 1) 8192) := by
  induction chunks with
  | nil =>
    intro fuel acc sizes hfuel
    match fuel, hfuel with
    | fuel + 1, _ =>
      simp [readallLoop, mkContent, MockContent.read]
      rw [readallLoop.eq_def]
      simp
  | cons c cs ih =>
    intro fuel acc sizes hfuel
    match fuel, hfuel with
    | fuel + 1, hfuel =>
      have hf : cs.length + 1 ≤ fuel := by
        simpa [Nat.succ_le_succ_iff] using hfuel
      simp only [readallLoop, mkContent, MockContent.read, List.length_cons]
      rw [if_neg (by simp [mkContent])]
      rw [show (readallLoop fuel { queue := cs, atEof := false } (acc ++ c) (sizes ++ [8192]))
            = readallLoop fuel (mkContent cs) (acc ++ c) (sizes ++ [8192]) from rfl]
      rw [ih fuel (acc ++ c) (sizes ++ [8192]) hf]
      simp [List.replicate_succ, List.append_assoc]

/-- C4: `readall()` on a stream delivered in K chunks returns the
concatenation of all K chunks; every underlying read requests the fixed
internal chunk size of 8192 bytes, and exactly K+1 reads are issued —
the last one observing end-of-stream, which is reported exactly once. -/
theorem attachmentReader_readall_concat (chunks : List Bytes) (fuel : Nat)
    (hfuel : chunks.length + 1 ≤ fuel) :
    AttachmentReaderState.readall fuel (mkAttachmentReader chunks) =
      some (chunks.flatten,
            { content := ⟨[], true⟩, closeCalls := 0 },
            List.replicate (chunks.length + 1) 8192) := by
  unfold AttachmentReaderState.readall
  rw [show (mkAttachmentReader chunks).content = mkContent chunks from rfl]
  rw [readallLoop_spec chunks fuel [] [] hfuel]
  simp [mkAttachmentReader]

/-- Witness: `readall` over the two-chunk stream of `test_readall`
returns the concatenated buffer after three 8192-byte reads. -/
theorem attachmentReader_readall_concat_witness :
    AttachmentReaderState.readall 3 (mkAttachmentReader [['.','.','.'], ['-','-','-']]) =
      some (['.','.','.','-','-','-'],
            { content := ⟨[], true⟩, closeCalls := 0 }, [8192, 8192, 8192]) := by
  rw [attachmentReader_readall_concat [['.','.','.'], ['-','-','-']] 3 (by decide)]
  rfl

/-- Unfolding lemma for a positive hint: the readlines loop collects the
shortest prefix of the queued lines whose cumulative size reaches the
remaining budget `h - size`. -/
theorem readlinesLoop_pos_spec (h : Int) (lines : List Bytes) :
    ∀ (fuel : Nat) (acc : List Bytes) (size : Nat) (k : Nat),
      (∀ l ∈ lines, l ≠ []) → lines.length + 1 ≤ fuel → 0 < h → (size : Int) < h →
      ∃ a', readlinesLoop fuel (some h) ⟨mkContent lines, k⟩ acc size =
        some (acc ++ takeBySize (h - size) lines, a') := by
  induction lines with
  | nil =>
    intro fuel acc size k _ hfuel _ _
    match fuel, hfuel with
    | fuel + 1, _ =>
      refine ⟨⟨⟨[], true⟩, k⟩, ?_⟩
      simp [readlinesLoop, AttachmentReaderState.readlineA,
        MockContent.readlineM, mkContent, takeBySize]
  | cons l ls ih =>
    intro fuel acc size k hne hfuel hpos hlt
    match fuel, hfuel with
    | fuel + 1, hfuel =>
      have hl : l ≠ [] := hne l (by simp)
      have hf : ls.length + 1 ≤ fuel := by simpa [Nat.succ_le_succ_iff] using hfuel
      rw [readlinesLoop]
      simp only [AttachmentReaderState.readlineA, MockContent.readlineM, mkContent]
      rw [if_neg hl]
      by_cases hstop : h ≤ ((size + l.length : Nat) : Int)
      · refine ⟨⟨⟨ls, false⟩, k⟩, ?_⟩
        rw [if_pos (by simp [hintReached]; constructor <;> omega)]
        have ht : takeBySize (h - size) (l :: ls) = [l] := by
          rw [takeBySize, if_pos (by push_cast at hstop ⊢; omega)]
        rw [ht]
      · have hlt' : ((size + l.length : Nat) : Int) < h := by push_cast at hstop ⊢; omega
        obtain ⟨a', ha'⟩ := ih fuel (acc ++ [l]) (size + l.length) k
          (fun x hx => hne x (by simp [hx])) hf hpos hlt'
        refine ⟨a', ?_⟩
        rw [if_neg (by simp [hintReached]; intro; push_cast at hstop ⊢; omega)]
        rw [show ({ content := { queue := ls, atEof := false }, closeCalls := k } :
              AttachmentReaderState) = ⟨mkContent ls, k⟩ from rfl]
        rw [ha']
        have ht : takeBySize (h - size) (l :: ls) =
            l :: takeBySize (h - size - l.length) ls := by
          rw [takeBySize, if_neg (by push_cast at hstop ⊢; omega)]
        rw [ht]
        push_cast
        simp [List.append_assoc, sub_sub]

/-- Unfolding lemma for an absent or non-positive hint: the readlines
loop collects every queued line until end-of-stream. -/
theorem readlinesLoop_all_spec (hint : Option Int) (lines : List Bytes)
    (hhint : hint = none ∨ ∃ h, hint = some h ∧ h ≤ 0) :
    ∀ (fuel : Nat) (acc : List Bytes) (size : Nat) (k : Nat),
      (∀ l ∈ lines, l ≠ []) → lines.length + 1 ≤ fuel →
      ∃ a', readlinesLoop fuel hint ⟨mkContent lines, k⟩ acc size =
        some (acc ++ lines, a') := by
  induction lines with
  | nil =>
    intro fuel acc size k _ hfuel
    match fuel, hfuel with
    | fuel + 1, _ =>
      refine ⟨⟨⟨[], true⟩, k⟩, ?_⟩
      simp [readlinesLoop, AttachmentReaderState.readlineA,
        MockContent.readlineM, mkContent]
  | cons l ls ih =>
    intro fuel acc size k hne hfuel
    match fuel, hfuel with
    | fuel + 1, hfuel =>
      have hl : l ≠ [] := hne l (by simp)
      have hf : ls.length + 1 ≤ fuel := by simpa [Nat.succ_le_succ_iff] using hfuel
      obtain ⟨a', ha'⟩ := ih fuel (acc ++ [l]) (size + l.length) k
        (fun x hx => hne x (by simp [hx])) hf
      have hreach : hintReached hint (size + l.length) = false := by
        rcases hhint with hn | ⟨h, hs, hle⟩
        · simp [hn, hintReached]
        · simp [hs, hintReached]
          intro
          omega
      rw [readlinesLoop]
      simp only [AttachmentReaderState.readlineA, MockContent.readlineM, mkContent]
      rw [if_neg hl]
      rw [if_neg (by simp [hreach])]
      rw [show ({ content := { queue := ls, atEof := false }, closeCalls := k } :
            AttachmentReaderState) = ⟨mkContent ls, k⟩ from rfl]
      rw [ha']
      simp [List.append_assoc]

/-- The two lines of the readlines unit tests. -/
def c3Lines : List Bytes := [['.', '.', '.'], ['-', '-', '-']]

/-- C3, counterexample: over a stream holding two available lines,
`readlines(2)` returns a single line (the hint bounds the accumulated
byte size, not the line count), so the claim's "exactly hint lines when
at least hint lines are available" fails at hint = 2. -/
theorem attachmentReader_readlines_hint_counterexample :
    (mkAttachmentReader c3Lines).content.queue.length = 2 ∧
    (AttachmentReaderState.readlines 10 (some 2) (mkAttachmentReader c3Lines)).map
        (fun r => r.1) = some [['.', '.', '.']] ∧
    ([['.', '.', '.']] : List Bytes).length ≠ 2 := by
  refine ⟨rfl, rfl, by decide⟩

/-- C3, amended: `readlines(hint)` with a positive `hint` returns the
shortest prefix of the available lines whose cumulative byte size
reaches `hint` (all remaining lines when the stream is exhausted
first); with `hint` absent or non-positive it reads every line until
end-of-stream. -/
theorem attachmentReader_readlines_spec (lines : List Bytes) (h : Int) (fuel : Nat)
    (hne : ∀ l ∈ lines, l ≠ []) (hfuel : lines.length + 1 ≤ fuel) :
    (0 < h → ∃ a', AttachmentReaderState.readlines fuel (some h) (mkAttachmentReader lines) =
        some (takeBySize h lines, a')) ∧
    (h ≤ 0 → ∃ a', AttachmentReaderState.readlines fuel (some h) (mkAttachmentReader lines) =
        some (lines, a')) ∧
    (∃ a', AttachmentReaderState.readlines fuel none (mkAttachmentReader lines) =
        some (lines, a')) := by
  refine ⟨fun hpos => ?_, fun hle => ?_, ?_⟩
  · obtain ⟨a', ha'⟩ := readlinesLoop_pos_spec h lines fuel [] 0 0 hne hfuel hpos
      (by exact_mod_cast hpos)
    exact ⟨a', by simpa [AttachmentReaderState.readlines, mkAttachmentReader] using ha'⟩
  · obtain ⟨a', ha'⟩ := readlinesLoop_all_spec (some h) lines (Or.inr ⟨h, rfl, hle⟩)
      fuel [] 0 0 hne hfuel
    exact ⟨a', by simpa [AttachmentReaderState.readlines, mkAttachmentReader] using ha'⟩
  · obtain ⟨a', ha'⟩ := readlinesLoop_all_spec none lines (Or.inl rfl) fuel [] 0 0 hne hfuel
    exact ⟨a', by simpa [AttachmentReaderState.readlines, mkAttachmentReader] using ha'⟩

/-- Witness for the amended readlines statement at the unit tests'
inputs: hint 2 stops after the first 3-byte line, hint 42 and no hint
collect both lines. -/
theorem attachmentReader_readlines_spec_witness :
    (∃ a', AttachmentReaderState.readlines 10 (some 2) (mkAttachmentReader c3Lines) =
        some ([['.', '.', '.']], a')) ∧
    (∃ a', AttachmentReaderState.readlines 10 (some 42) (mkAttachmentReader c3Lines) =
        some (c3Lines, a')) ∧
    (∃ a', AttachmentReaderState.readlines 10 none (mkAttachmentReader c3Lines) =
        some (c3Lines, a')) := by
  refine ⟨?_, ?_, ?_⟩
  · have := (attachmentReader_readlines_spec c3Lines 2 10 (by decide) (by decide)).1
      (by decide)
    simpa [c3Lines, takeBySize] using this
  · have := (attachmentReader_readlines_spec c3Lines 42 10 (by decide) (by decide)).1
      (by decide)
    simpa [c3Lines, takeBySize] using this
  · exact (attachmentReader_readlines_spec c3Lines 42 10 (by decide) (by decide)).2.2

/-- C5: `closed` equals the underlying stream's end-of-stream flag, and
`close()` leaves the reader (and its underlying connection) unchanged
exactly when the stream already signals end-of-stream; otherwise it
issues one `resp.close()` on the underlying connection. -/
theorem attachmentReader_close_spec (a : AttachmentReaderState) :
    a.closed = a.content.atEof ∧
    (a.close = a ↔ a.content.atEof = true) ∧
    (a.content.atEof = false → a.close.closeCalls = a.closeCalls + 1) := by
  obtain ⟨⟨q, e⟩, k⟩ := a
  cases e <;>
    simp [AttachmentReaderState.close, AttachmentReaderState.closed,
      AttachmentReaderState.mk.injEq]

/-- Witness: closing a live reader issues one close call; closing an
already exhausted reader is the identity. -/
theorem attachmentReader_close_spec_witness :
    (AttachmentReaderState.close ⟨⟨[['x']], false⟩, 0⟩).closeCalls = 1 ∧
    AttachmentReaderState.close ⟨⟨[], true⟩, 5⟩ = ⟨⟨[], true⟩, 5⟩ := by
  exact ⟨(attachmentReader_close_spec ⟨⟨[['x']], false⟩, 0⟩).2.2 rfl,
    ((attachmentReader_close_spec ⟨⟨[], true⟩, 5⟩).2.1).mpr rfl⟩

/-!
## Document.update input validation and AuthDatabase item access

Modelled from the spec: `Document.update` of `aiocouchdb/v1/document.py`
and `AuthDatabase.__getitem__` of `aiocouchdb/v1/authdb.py` are absent
from `src/`; their validation and identifier behaviour is pinned by
`DocumentTestCase.test_update_expect_mapping`,
`test_update_reject_docid_collision` and
`AuthDatabaseTestCase.test_get_doc_with_prefix`.
-/

/-- The argument handed to `Document.update`: either some `Mapping`
instance (plain `dict` and `dict` subtypes such as the tests' `Foo`
included — the source checks `isinstance(doc, Mapping)`), or a
non-mapping value such as the tests' `[]`. -/
inductive UpdateArg where
  | mapping (entries : List (String × String))
  | notMapping
deriving DecidableEq, Repr

/-- Outcome of the validation prologue of `Document.update`. -/
inductive UpdateCheck where
  | accepted
  | typeErr
  | valueErr
deriving DecidableEq, Repr

/-- First-match association lookup, as the mapping's key access. -/
def lookupEntry (entries : List (String × String)) (k : String) : Option String :=
  match entries with
  | [] => none
  | (k', v) :: rest => if k' = k then some v else lookupEntry rest k

/-- Modelled from the spec: the validation prologue of `Document.update`
(document module absent from `src/`): a non-mapping argument raises
`TypeError`; a mapping whose `_id` entry differs from the document's own
id raises `ValueError`; anything else is accepted and the request is
issued. -/
def documentUpdateValidate (docid : String) : UpdateArg → UpdateCheck
  | .notMapping => .typeErr
  | .mapping entries =>
    match lookupEntry entries "_id" with
    | some v => if v ≠ docid then .valueErr else .accepted
    | none => .accepted

/-- C9: `Document.update` rejects every non-mapping argument with
`TypeError` and every mapping whose `_id` differs from the document id
with `ValueError`, before any request is issued; a mapping without an
`_id`, or with the matching `_id`, is accepted. -/
theorem document_update_validation (docid : String) (entries : List (String × String)) :
    documentUpdateValidate docid .notMapping = .typeErr ∧
    (∀ v, lookupEntry entries "_id" = some v → v ≠ docid →
      documentUpdateValidate docid (.mapping entries) = .valueErr) ∧
    (lookupEntry entries "_id" = none →
      documentUpdateValidate docid (.mapping entries) = .accepted) ∧
    (lookupEntry entries "_id" = some docid →
      documentUpdateValidate docid (.mapping entries) = .accepted) := by
  refine ⟨rfl, fun v hv hne => ?_, fun hn => ?_, fun hid => ?_⟩
  · simp [documentUpdateValidate, hv, hne]
  · simp [documentUpdateValidate, hn]
  · simp [documentUpdateValidate, hid]

/-- Witness: the concrete inputs of the update validation tests — a
non-mapping argument, the conflicting `._id = "foo"` mapping, the empty
`Foo()` dict subtype, and a mapping carrying the document's own id. -/
theorem document_update_validation_witness :
    documentUpdateValidate "docid" .notMapping = .typeErr ∧
    documentUpdateValidate "docid" (.mapping [("_id", "foo")]) = .valueErr ∧
    documentUpdateValidate "docid" (.mapping []) = .accepted ∧
    documentUpdateValidate "docid" (.mapping [("_id", "docid")]) = .accepted := by
  refine ⟨(document_update_validation "docid" []).1,
    (document_update_validation "docid" [("_id", "foo")]).2.1 "foo" rfl (by decide),
    (document_update_validation "docid" []).2.2.1 rfl,
    (document_update_validation "docid" [("_id", "docid")]).2.2.2 rfl⟩

/-- Modelled from the spec: `AuthDatabase.__getitem__` (authdb module
absent from `src/`): the resulting document id gets the user-document id
lead-in `doc_pre` prepended unless the requested name already starts
with it. -/
def authDatabaseItemId (docPre name : Bytes) : Bytes :=
  if docPre.isPrefixOf name then name else docPre ++ name

/-- C10: AuthDatabase item access applies the user-document id lead-in
idempotently: a name lacking it gets it prepended, a name already
carrying it is returned unchanged, and applying the access twice equals
applying it once. -/
theorem authdb_item_id_idempotent (docPre name : Bytes) :
    (docPre.isPrefixOf name = false → authDatabaseItemId docPre name = docPre ++ name) ∧
    (docPre.isPrefixOf name = true → authDatabaseItemId docPre name = name) ∧
    authDatabaseItemId docPre (authDatabaseItemId docPre name) =
      authDatabaseItemId docPre name := by
  refine ⟨fun hno => by simp [authDatabaseItemId, hno], fun hyes => by
    simp [authDatabaseItemId, hyes], ?_⟩
  by_cases hp : docPre.isPrefixOf name
  · simp [authDatabaseItemId, hp]
  · have hpre : docPre.isPrefixOf (docPre ++ name) = true :=
      isPrefixOfAppendSelf docPre name
    simp [authDatabaseItemId, hp, hpre]

/-- Witness: with the user-document lead-in `org.couchdb.user:` of the
auth database tests, `db` indexing at `test` and at
`org.couchdb.user:test` both yield the id `org.couchdb.user:test`. -/
theorem authdb_item_id_idempotent_witness :
    authDatabaseItemId ("org.couchdb.user:".data) ("test".data) =
      ("org.couchdb.user:test".data) ∧
    authDatabaseItemId ("org.couchdb.user:".data) ("org.couchdb.user:test".data) =
      ("org.couchdb.user:test".data) := by
  refine ⟨?_, (authdb_item_id_idempotent ("org.couchdb.user:".data)
    ("org.couchdb.user:test".data)).2.1 (by decide)⟩
  have := (authdb_item_id_idempotent ("org.couchdb.user:".data) ("test".data)).1 (by decide)
  rw [this]
  decide

/-!
## HttpPayloadParser of the client layer

`HttpPayloadParser.__call__` in `src/aiocouchdb/client/__init__.py`
selects how the response payload is parsed: chunked transfer-encoding,
a declared Content-Length (rejecting non-numeric or negative values),
or read-to-eof.  The module's import statements bind only
`asyncio`, `aiohttp` (and submodules), `ClientResponse`, `HttpSession`,
`extract_credentials`, `request`, `urljoin`, `Resource`, `__all__` and
the class itself — the header-name constants `CONTENT_LENGTH`,
`SEC_WEBSOCKET_KEY1` and `TRANSFER_ENCODING` the body references are
bound nowhere, so the embedding routes every global constant reference
through an explicit resolver over the module's bound names.
-/

/-- A Python-level failure of the payload parser. -/
inductive PyErr where
  | nameError (n : String)
  | invalidHeader (h : String)
deriving DecidableEq, Repr

/-- How the payload ends up being parsed. -/
inductive PayloadOutcome where
  | skipped
  | chunkedParsed
  | lengthParsed (n : Nat)
  | emptyPayload
  | eofParsed
  | warned
deriving DecidableEq, Repr

/-- The response message visible to the parser: headers, the message's
compression flag, status code and request method. -/
structure HttpMessageModel where
  headers : List (String × String)
  compressionM : Bool
  code : Nat
  methodM : Option String
deriving DecidableEq, Repr

/-- The parser object's own state (old-style construction assumed, so
`self.message` is present — the most favourable reading of the code). -/
structure PayloadParserSelf where
  message : HttpMessageModel
  responseWithBody : Bool
  compression : Bool
  readall : Bool
  selfLength : Option Int
deriving DecidableEq, Repr

/-- Lower-cased character list of a string, for case-insensitive header
lookup (the source's headers mapping is case-insensitive). -/
def lowerChars (s : String) : List Char :=
  s.data.map Char.toLower

/-- Case-insensitive first-match header lookup. -/
def headerGetCI (hs : List (String × String)) (k : String) : Option String :=
  match hs with
  | [] => none
  | (k', v) :: rest => if lowerChars k' = lowerChars k then some v else headerGetCI rest k

/-- Value of a digit list, most significant first. -/
def digitsToNat (ds : List Char) : Nat :=
  ds.foldl (fun a c => a * 10 + (c.toNat - '0'.toNat)) 0

/-- Python's `int(str)`: optional surrounding whitespace, optional sign,
then at least one digit; anything else raises `ValueError` (`none`). -/
def pyInt (s : String) : Option Int :=
  let t := s.data.dropWhile Char.isWhitespace
  let t := (t.reverse.dropWhile Char.isWhitespace).reverse
  match t with
  | '-' :: ds => if ds ≠ [] ∧ ds.all Char.isDigit then some (-(digitsToNat ds : Int)) else none
  | '+' :: ds => if ds ≠ [] ∧ ds.all Char.isDigit then some ((digitsToNat ds : Int)) else none
  | ds => if ds ≠ [] ∧ ds.all Char.isDigit then some ((digitsToNat ds : Int)) else none

/-- Boolean infix test on character lists. -/
def listIsInfixB (n : List Char) : List Char → Bool
  | [] => n.isEmpty
  | c :: rest => n.isPrefixOf (c :: rest) || listIsInfixB n rest

/-- Python's `needle in hay` on strings. -/
def isSubstrOf (needle hay : String) : Bool :=
  listIsInfixB needle.data hay.data

/-- The names bound at module level in `src/aiocouchdb/client/__init__.py`
(its import statements and top-level assignments). -/
def clientModuleNames : List String :=
  ["asyncio", "aiohttp", "ClientResponse", "HttpSession", "extract_credentials",
   "request", "urljoin", "Resource", "__all__", "HttpPayloadParser"]

/-- Module-global name resolution as it stands in the source: a name
outside the module's bindings raises `NameError`; the bound names carry
no header-name value, so resolution of the three header constants always
fails. -/
def resolveSrcGlobal (n : String) : Except PyErr String :=
  if n ∈ clientModuleNames then Except.ok n else Except.error (.nameError n)

/-- Name resolution as the vendored code intends (the constants of the
aiohttp version it was written against). -/
def intendedGlobalValue (n : String) : Except PyErr String :=
  if n = "CONTENT_LENGTH" then Except.ok "Content-Length"
  else if n = "SEC_WEBSOCKET_KEY1" then Except.ok "Sec-Websocket-Key1"
  else if n = "TRANSFER_ENCODING" then Except.ok "Transfer-Encoding"
  else Except.error (.nameError n)

/-- `HttpPayloadParser.__call__` of `src/aiocouchdb/client/__init__.py`,
parameterised by the resolver for its module-global constant references
(in source order: `CONTENT_LENGTH` on the first line, then
`SEC_WEBSOCKET_KEY1`, then — only on the with-body non-chunked path —
`TRANSFER_ENCODING`).  The compression branch only wraps the output
buffer and selects no outcome, so it is not modelled. -/
def payloadParserCallCore (resolver : String → Except PyErr String)
    (p : PayloadParserSelf) : Except PyErr PayloadOutcome := do
  let clName ← resolver "CONTENT_LENGTH"
  let lengthV : Option (String ⊕ Int) :=
    match headerGetCI p.message.headers clName with
    | some s => some (Sum.inl s)
    | none => p.selfLength.map Sum.inr
  let wsName ← resolver "SEC_WEBSOCKET_KEY1"
  let lengthV := if (headerGetCI p.message.headers wsName).isSome
                 then some (Sum.inr 8) else lengthV
  if p.responseWithBody = false then
    pure PayloadOutcome.skipped
  else do
    let teName ← resolver "TRANSFER_ENCODING"
    let te := (headerGetCI p.message.headers teName).getD ""
    if isSubstrOf "chunked" te then pure PayloadOutcome.chunkedParsed
    else
      match lengthV with
      | some lv => do
        let n ← (match lv with
          | Sum.inl s =>
            match pyInt s with
            | some k => pure k
            | none => Except.error (.invalidHeader clName)
          | Sum.inr k => pure k)
        if n < 0 then Except.error (.invalidHeader clName)
        else if 0 < n then pure (PayloadOutcome.lengthParsed n.toNat)
        else pure PayloadOutcome.emptyPayload
      | none =>
        if p.readall ∧ p.message.code ≠ 204 then pure PayloadOutcome.eofParsed
        else if p.message.methodM = some "PUT" ∨ p.message.methodM = some "POST"
        then pure PayloadOutcome.warned
        else pure PayloadOutcome.skipped

/-- The call as the source executes it. -/
def httpPayloadParserCall (p : PayloadParserSelf) : Except PyErr PayloadOutcome :=
  payloadParserCallCore resolveSrcGlobal p

/-- The call under the intended bindings of the header-name constants. -/
def httpPayloadParserIntended (p : PayloadParserSelf) : Except PyErr PayloadOutcome :=
  payloadParserCallCore intendedGlobalValue p

/-- A body-expecting parser state over the given response headers. -/
def mkPayloadSelf (hs : List (String × String)) : PayloadParserSelf :=
  { message := { headers := hs, compressionM := false, code := 200, methodM := none },
    responseWithBody := true, compression := false, readall := true, selfLength := none }

/-- C7: the source's payload parser never reaches the Content-Length
validation: its very first line references the unbound module global
`CONTENT_LENGTH`, so every call fails with `NameError` before consuming
anything — against the claim's (and the vendored code's clearly
intended) behaviour, under which a negative or non-numeric declared
Content-Length signals the parse-classified `InvalidHeader` error before
any payload is consumed, a positive length selects the length-delimited
parse, and a zero length produces an empty payload. -/
theorem httpPayloadParserCall_name_error :
    (∀ p : PayloadParserSelf,
      httpPayloadParserCall p = Except.error (.nameError "CONTENT_LENGTH")) ∧
    httpPayloadParserIntended (mkPayloadSelf [("Content-Length", "-1")]) =
      Except.error (.invalidHeader "Content-Length") ∧
    httpPayloadParserIntended (mkPayloadSelf [("Content-Length", "abc")]) =
      Except.error (.invalidHeader "Content-Length") ∧
    httpPayloadParserIntended (mkPayloadSelf [("Content-Length", "10")]) =
      Except.ok (PayloadOutcome.lengthParsed 10) ∧
    httpPayloadParserIntended (mkPayloadSelf [("Content-Length", "0")]) =
      Except.ok PayloadOutcome.emptyPayload := by
  exact ⟨fun p => rfl, rfl, rfl, rfl, rfl⟩

/-!
## The nested multipart decoder

Modelled from the spec: the multipart module (`aiocouchdb/multipart.py`)
and `OpenRevsMultipartReader` of `aiocouchdb/v1/document.py` are absent
from `src/`; the decoder below follows spec §4.3–§4.4 — scan lines for
the `--boundary` delimiter (skipping any preamble), transition to
Exhausted on the closing `--boundary--` form, parse the `Name: value`
header block up to a blank line, bound each part's body by the next
boundary occurrence, drain the previous part before advancing, and wrap
a part whose own content type is `multipart/*` as a nested reader.  The
line-level mechanics (CRLF handling before a delimiter, the push-back
queue of look-ahead lines and its hand-off from a finished part to the
enclosing reader, the trailing-CRLF read after a length-delimited body)
are pinned by the `OpenRevsMultipartReader` unit tests in
`src/aiocouchdb/v1/tests/test_document.py`.

The source's readers alias one underlying content stream and the
enclosing reader aliases the last part it produced; explicit state
passing surfaces both: every operation takes and returns the stream,
and `next` takes the caller's current state of the previously returned
part as the `last` argument.
-/

/-- Read one LF-terminated line (terminator included) from the stream;
at end of stream the remaining bytes (possibly none) are returned. -/
def readlineB : Bytes → Bytes × Bytes
  | [] => ([], [])
  | c :: rest =>
    if c = '\n' then ([c], rest)
    else
      let (l, r) := readlineB rest
      (c :: l, r)

/-- Read up to `n` bytes from the stream. -/
def readB (n : Nat) (s : Bytes) : Bytes × Bytes :=
  (s.take n, s.drop n)

/-- A decoded body part: the governing boundary token (with its `--`
lead-in), the part's headers, the declared Content-Length if any, the
count of body bytes already consumed, the end-of-part flag and the
queue of pushed-back look-ahead lines. -/
structure BodyPartReader where
  boundary : Bytes
  headers : List (Bytes × Bytes)
  lengthH : Option Nat
  readBytes : Nat
  atEof : Bool
  unread : List Bytes
deriving DecidableEq, Repr

/-- One `readline()` of a part's body: serve a pushed-back line first;
a line equal (up to trailing CRLF) to the boundary or to its closing
form ends the part and is pushed back for the enclosing reader; an
ordinary line requires one look-ahead line — when the look-ahead is a
boundary line the CRLF that belongs to the framing is stripped from the
returned line and the look-ahead is pushed back. -/
def bodyPartReadline (p : BodyPartReader) (s : Bytes) : Bytes × BodyPartReader × Bytes :=
  if p.atEof then ([], p, s)
  else
    let (line, p1, s1) :=
      match p.unread with
      | l :: rest => (l, { p with unread := rest }, s)
      | [] =>
        let (l, s') := readlineB s
        (l, p, s')
    if p1.boundary.isPrefixOf line then
      let sline := rstripCRLF line
      if sline = p1.boundary ∨ sline = p1.boundary ++ dashdash then
        ([], { p1 with atEof := true, unread := p1.unread ++ [line] }, s1)
      else (line, p1, s1)
    else
      let (nextLine, s2) := readlineB s1
      let line' := if p1.boundary.isPrefixOf nextLine
                   then line.take (line.length - 2) else line
      (line', { p1 with unread := p1.unread ++ [nextLine] }, s2)

/-- One bounded chunk of a length-delimited part body; after the last
chunk the framing CRLF that precedes the next boundary is consumed. -/
def bodyPartReadChunk (p : BodyPartReader) (size : Nat) (s : Bytes) :
    Except String (Bytes × BodyPartReader × Bytes) :=
  if p.atEof then Except.ok ([], p, s)
  else
    match p.lengthH with
    | none => Except.error "Content-Length required for chunked read"
    | some len =>
      let csize := min size (len - p.readBytes)
      let (chunk, s1) := readB csize s
      let p1 := { p with readBytes := p.readBytes + csize }
      if p1.readBytes = len then
        let (tail, s2) := readlineB s1
        if tail = crlf then Except.ok (chunk, { p1 with atEof := true }, s2)
        else Except.error "reader did not read all the data or it is malformed"
      else Except.ok (chunk, p1, s1)

/-- Body accumulation loop for a part without a declared length. -/
def bodyPartReadLinesLoop (fuel : Nat) (p : BodyPartReader) (s : Bytes) (acc : Bytes) :
    Except String (Bytes × BodyPartReader × Bytes) :=
  if p.atEof then Except.ok (acc, p, s)
  else
    match fuel with
    | 0 => Except.error "fuel exhausted"
    | fuel + 1 =>
      let (line, p1, s1) := bodyPartReadline p s
      bodyPartReadLinesLoop fuel p1 s1 (acc ++ line)

/-- Body accumulation loop for a length-delimited part. -/
def bodyPartReadChunksLoop (fuel : Nat) (p : BodyPartReader) (s : Bytes) (acc : Bytes) :
    Except String (Bytes × BodyPartReader × Bytes) :=
  if p.atEof then Except.ok (acc, p, s)
  else
    match fuel with
    | 0 => Except.error "fuel exhausted"
    | fuel + 1 => do
      let (chunk, p1, s1) ← bodyPartReadChunk p 8192 s
      bodyPartReadChunksLoop fuel p1 s1 (acc ++ chunk)

/-- `BodyPartReader.read()`: the whole remaining body — empty once the
part is at end; line-driven without a declared length, chunk-driven
with one. -/
def bodyPartRead (fuel : Nat) (p : BodyPartReader) (s : Bytes) :
    Except String (Bytes × BodyPartReader × Bytes) :=
  if p.atEof then Except.ok ([], p, s)
  else
    match p.lengthH with
    | none => bodyPartReadLinesLoop fuel p s []
    | some _ => bodyPartReadChunksLoop fuel p s []

/-- `BodyPartReader.next()`: the body, or the terminal `none` when
nothing remains. -/
def bodyPartNext (fuel : Nat) (p : BodyPartReader) (s : Bytes) :
    Except String (Option Bytes × BodyPartReader × Bytes) := do
  let (item, p1, s1) ← bodyPartRead fuel p s
  if item = [] then Except.ok (none, p1, s1) else Except.ok (some item, p1, s1)

/-- `BodyPartReader.release()`: drain the remaining body, keeping
nothing. -/
def bodyPartRelease (fuel : Nat) (p : BodyPartReader) (s : Bytes) :
    Except String (BodyPartReader × Bytes) := do
  let (_, p1, s1) ← bodyPartRead fuel p s
  Except.ok (p1, s1)

/-- State of a multipart reader: the boundary token (with `--` lead-in),
the Exhausted flag, the before-first-boundary flag and the stack of
pushed-back lines handed over from finished parts. -/
structure MultipartReader where
  boundary : Bytes
  atEof : Bool
  atBof : Bool
  unread : List Bytes
deriving DecidableEq, Repr

/-- What `MultipartReader.next` hands to the caller: a plain body part,
or a nested multipart reader for a part whose own content type is
`multipart/*` — together with the nested reader's own last-produced
part (the aliasing surrogate). -/
inductive SubReader where
  | part (p : BodyPartReader)
  | multi (m : MultipartReader) (lastB : Option BodyPartReader)
deriving DecidableEq, Repr

/-- End-of-part/of-reader flag of a produced sub-reader. -/
def SubReader.atEofS : SubReader → Bool
  | .part p => p.atEof
  | .multi m _ => m.atEof

/-- Pushed-back lines held by a produced sub-reader. -/
def SubReader.unreadS : SubReader → List Bytes
  | .part p => p.unread
  | .multi m _ => m.unread

/-- Pop the most recently pushed element of the push-back stack. -/
def popLastB : List Bytes → Option (Bytes × List Bytes)
  | [] => none
  | [x] => some (x, [])
  | x :: y :: rest =>
    match popLastB (y :: rest) with
    | some (z, zs) => some (z, x :: zs)
    | none => none

/-- One line for boundary scanning: the most recently pushed-back line
if any, else a line from the stream. -/
def multipartReadlineU (m : MultipartReader) (s : Bytes) :
    Bytes × MultipartReader × Bytes :=
  match popLastB m.unread with
  | some (l, rest) => (l, { m with unread := rest }, s)
  | none =>
    let (l, s') := readlineB s
    (l, m, s')

/-- Scan lines (skipping any preamble) until the first boundary line;
the closing form puts the reader at Exhausted; a truncated stream is a
decode failure. -/
def multipartReadUntilFirstBoundary (fuel : Nat) (m : MultipartReader) (s : Bytes) :
    Except String (MultipartReader × Bytes) :=
  match fuel with
  | 0 => Except.error "fuel exhausted"
  | fuel + 1 =>
    let (chunk, m1, s1) := multipartReadlineU m s
    if chunk = [] then Except.error "Could not find starting boundary"
    else
      let c := rstripWS chunk
      if c = m1.boundary then Except.ok (m1, s1)
      else if c = m1.boundary ++ dashdash then Except.ok ({ m1 with atEof := true }, s1)
      else multipartReadUntilFirstBoundary fuel m1 s1

/-- Read the delimiter line between two parts: the plain form continues,
the closing form puts the reader at Exhausted, anything else is a
decode failure. -/
def multipartReadBoundary (m : MultipartReader) (s : Bytes) :
    Except String (MultipartReader × Bytes) :=
  let (chunk, m1, s1) := multipartReadlineU m s
  let c := rstripWS chunk
  if c = m1.boundary then Except.ok (m1, s1)
  else if c = m1.boundary ++ dashdash then Except.ok ({ m1 with atEof := true }, s1)
  else Except.error "Invalid boundary"

/-- Parse one stripped `Name: value` header line. -/
def parseHeaderLine (l : Bytes) : Except String (Bytes × Bytes) :=
  let name := l.takeWhile (fun c => c ≠ ':')
  let rest := l.dropWhile (fun c => c ≠ ':')
  match rest with
  | ':' :: v => Except.ok (stripWS name, stripWS v)
  | _ => Except.error "header line without a colon"

/-- Consume and parse header lines up to (and including) the blank
line; a line at end-of-stream is treated like the blank terminator, as
the source's falsy-strip check does. -/
def multipartReadHeaders (fuel : Nat) (s : Bytes) (acc : List (Bytes × Bytes)) :
    Except String (List (Bytes × Bytes) × Bytes) :=
  match fuel with
  | 0 => Except.error "fuel exhausted"
  | fuel + 1 =>
    let (line, s1) := readlineB s
    let c := stripWS line
    if c = [] then Except.ok (acc, s1)
    else do
      let kv ← parseHeaderLine c
      multipartReadHeaders fuel s1 (acc ++ [kv])

/-- Case-insensitive header lookup (`name` given lower-cased). -/
def getHeaderB (hs : List (Bytes × Bytes)) (name : Bytes) : Option Bytes :=
  match hs with
  | [] => none
  | (k, v) :: rest => if k.map Char.toLower = name then some v else getHeaderB rest name

/-- Main type of a mime string: the lower-cased stripped text before the
first slash. -/
def mimeMainType (ctype : Bytes) : Bytes :=
  (stripWS (ctype.takeWhile (fun c => c ≠ '/'))).map Char.toLower

/-- Split on every semicolon (the mime parameter separator). -/
def splitOnSemiAux : Bytes → Bytes → List Bytes
  | [], acc => [acc.reverse]
  | c :: rest, acc =>
    if c = ';' then acc.reverse :: splitOnSemiAux rest []
    else splitOnSemiAux rest (c :: acc)

/-- Split a mime string on semicolons. -/
def splitOnSemi (l : Bytes) : List Bytes :=
  splitOnSemiAux l []

/-- Strip spaces and double quotes at both ends, as the mime parameter
value normalisation does. -/
def stripSpaceQuote (v : Bytes) : Bytes :=
  ((v.dropWhile (fun c => c = ' ' ∨ c = '"')).reverse.dropWhile
    (fun c => c = ' ' ∨ c = '"')).reverse

/-- Key (lower-cased, stripped) and normalised value of one mime
parameter segment. -/
def segKeyValue (seg : Bytes) : Bytes × Bytes :=
  let k := seg.takeWhile (fun c => c ≠ '=')
  let r := seg.dropWhile (fun c => c ≠ '=')
  match r with
  | '=' :: v => ((stripWS k).map Char.toLower, stripSpaceQuote v)
  | _ => ((stripWS seg).map Char.toLower, [])

/-- First `boundary=` parameter among the mime parameter segments. -/
def findBoundaryIn : List Bytes → Option Bytes
  | [] => none
  | seg :: rest =>
    let (k, v) := segKeyValue seg
    if k = ("boundary".data) then some v else findBoundaryIn rest

/-- Boundary parameter of a Content-Type value. -/
def boundaryParam (ctype : Bytes) : Option Bytes :=
  match splitOnSemi ctype with
  | [] => none
  | _ :: params => findBoundaryIn params

/-- Build a multipart reader from the governing Content-Type value: the
type must be `multipart/*`, carry a `boundary=` parameter of at most 70
characters; the boundary token is stored with its `--` lead-in. -/
def multipartReaderCreate (ctypeHeader : Bytes) : Except String MultipartReader :=
  if mimeMainType ctypeHeader = ("multipart".data) then
    match boundaryParam ctypeHeader with
    | none => Except.error "boundary missed for mimetype multipart"
    | some b =>
      if b.length ≤ 70 then
        Except.ok { boundary := dashdash ++ b, atEof := false, atBof := true, unread := [] }
      else Except.error "boundary value is too long"
  else Except.error "multipart content type expected"

/-- Content-Length of a part's headers: absent gives `none`; a
non-natural value is a decode failure. -/
def contentLengthOf (hs : List (Bytes × Bytes)) : Except String (Option Nat) :=
  match getHeaderB hs ("content-length".data) with
  | none => Except.ok none
  | some v =>
    match pyInt (String.mk v) with
    | some k => if k < 0 then Except.error "bad content length" else Except.ok (some k.toNat)
    | none => Except.error "bad content length"

/-- Dispatch on a fetched part's own content type: a `multipart/*` part
becomes a nested reader over the same stream (nesting per spec §4.3), any
other part a body-part reader bounded by the enclosing boundary. -/
def multipartGetPartReader (m : MultipartReader) (headers : List (Bytes × Bytes)) :
    Except String SubReader :=
  let ctype := (getHeaderB headers ("content-type".data)).getD []
  if mimeMainType ctype = ("multipart".data) then do
    let sub ← multipartReaderCreate ctype
    Except.ok (SubReader.multi sub none)
  else do
    let len ← contentLengthOf headers
    Except.ok (SubReader.part
      { boundary := m.boundary, headers := headers, lengthH := len,
        readBytes := 0, atEof := false, unread := [] })

mutual

/-- `MultipartReader.next()` (spec §4.3): terminal immediately when
Exhausted; otherwise drain the previous part if the caller left it
unfinished and take over its pushed-back lines, read the delimiter line
(scanning the preamble before the first one), stop at the closing
delimiter, else parse the header block and hand out the next part. -/
def multipartNext (fuel : Nat) (m : MultipartReader) (last : Option SubReader) (s : Bytes) :
    Except String (Option SubReader × MultipartReader × Bytes) :=
  if m.atEof then Except.ok (none, m, s)
  else
    match fuel with
    | 0 => Except.error "fuel exhausted"
    | fuel + 1 => do
      let (m1, s1) ← multipartMaybeReleaseLast fuel m last s
      let (m2, s2) ←
        if m1.atBof then do
          let (ma, sa) ← multipartReadUntilFirstBoundary (fuel + 1) m1 s1
          Except.ok ({ ma with atBof := false }, sa)
        else multipartReadBoundary m1 s1
      if m2.atEof then Except.ok (none, m2, s2)
      else do
        let (headers, s3) ← multipartReadHeaders (fuel + 1) s2 []
        let sub ← multipartGetPartReader m2 headers
        Except.ok (some sub, m2, s3)

/-- The forward-only discipline of spec §4.3: before a new part is
produced, the previously produced one is drained unless the caller
already finished it, and its pushed-back look-ahead lines move to the
enclosing reader. -/
def multipartMaybeReleaseLast (fuel : Nat) (m : MultipartReader) (last : Option SubReader)
    (s : Bytes) : Except String (MultipartReader × Bytes) :=
  match last with
  | none => Except.ok (m, s)
  | some sub =>
    match fuel with
    | 0 => Except.error "fuel exhausted"
    | fuel + 1 => do
      let (sub1, s1) ←
        if sub.atEofS then Except.ok (sub, s) else subReaderRelease fuel sub s
      Except.ok ({ m with unread := m.unread ++ sub1.unreadS }, s1)

/-- Release a produced sub-reader: drain a body part, or drive a nested
reader to Exhausted releasing each of its parts. -/
def subReaderRelease (fuel : Nat) (sub : SubReader) (s : Bytes) :
    Except String (SubReader × Bytes) :=
  match fuel with
  | 0 => Except.error "fuel exhausted"
  | fuel + 1 =>
    match sub with
    | .part p => do
      let (p1, s1) ← bodyPartRelease (fuel + 1) p s
      Except.ok (SubReader.part p1, s1)
    | .multi mm lastB => do
      let (mm1, s1) ← multipartReleaseAll fuel mm (lastB.map SubReader.part) s
      Except.ok (SubReader.multi mm1 none, s1)

/-- `MultipartReader.release()`: pull and release parts until
Exhausted. -/
def multipartReleaseAll (fuel : Nat) (m : MultipartReader) (last : Option SubReader)
    (s : Bytes) : Except String (MultipartReader × Bytes) :=
  if m.atEof then Except.ok (m, s)
  else
    match fuel with
    | 0 => Except.error "fuel exhausted"
    | fuel + 1 => do
      let (item, m1, s1) ← multipartNext fuel m last s
      match item with
      | none => Except.ok (m1, s1)
      | some sub => do
        let (sub1, s2) ← subReaderRelease fuel sub s1
        multipartReleaseAll fuel m1 (some sub1) s2

end

/-- Drop leading whitespace (JSON token separation). -/
def skipWSC (l : Bytes) : Bytes :=
  l.dropWhile Char.isWhitespace

/-- One JSON string literal (no escape handling — the documents in
scope carry none). -/
def parseStringLit (l : Bytes) : Option (String × Bytes) :=
  match l with
  | '"' :: rest =>
    let content := rest.takeWhile (fun c => c ≠ '"')
    match rest.dropWhile (fun c => c ≠ '"') with
    | '"' :: tail => some (String.mk content, tail)
    | _ => none
  | _ => none

/-- Key/value members of a flat JSON object body, after the opening
brace and any whitespace. -/
def parseJsonPairs (fuel : Nat) (l : Bytes) (acc : List (String × String)) :
    Option (List (String × String)) :=
  match fuel with
  | 0 => none
  | fuel + 1 => do
    let (k, r1) ← parseStringLit l
    match skipWSC r1 with
    | ':' :: r3 => do
      let (v, r4) ← parseStringLit (skipWSC r3)
      match skipWSC r4 with
      | ',' :: r6 => parseJsonPairs fuel (skipWSC r6) (acc ++ [(k, v)])
      | '\x7d' :: r7 => if skipWSC r7 = [] then some (acc ++ [(k, v)]) else none
      | _ => none
    | _ => none

/-- Model of the external `json.loads` on the flat string-valued
objects the multipart scenarios exchange; an empty body gives `none`
as `BodyPartReader.json()` does. -/
def parseJsonFlat (l : Bytes) : Option (List (String × String)) :=
  match skipWSC l with
  | '\x7b' :: rest =>
    match skipWSC rest with
    | '\x7d' :: tail => if skipWSC tail = [] then some [] else none
    | other => parseJsonPairs (l.length + 1) other []
  | _ => none

/-- `OpenRevsMultipartReader.next()` (spec §4.4): pull the next item
from the envelope; at the terminal, the `(nil, nil)` pair.  An item that
is itself a nested `multipart/related` reader has its first sub-part
decoded as the document and the nested reader returned alongside; a
plain part is decoded as the document and that (then fully consumed)
part reader itself is returned alongside. -/
def openRevsNext (fuel : Nat) (m : MultipartReader) (last : Option SubReader) (s : Bytes) :
    Except String ((Option (List (String × String)) × Option SubReader) ×
      MultipartReader × Bytes) := do
  let (readerO, m1, s1) ← multipartNext fuel m last s
  if m1.atEof then Except.ok ((none, none), m1, s1)
  else
    match readerO with
    | none => Except.ok ((none, none), m1, s1)
    | some (SubReader.multi sub lastB) => do
      let (partO, sub1, s2) ← multipartNext fuel sub (lastB.map SubReader.part) s1
      match partO with
      | some (SubReader.part p) => do
        let (docBytes, p1, s3) ← bodyPartRead fuel p s2
        Except.ok ((parseJsonFlat docBytes, some (SubReader.multi sub1 (some p1))), m1, s3)
      | _ => Except.error "expected a body part inside the nested reader"
    | some (SubReader.part p) => do
      let (docBytes, p1, s2) ← bodyPartRead fuel p s1
      Except.ok ((parseJsonFlat docBytes, some (SubReader.part p1)), m1, s2)

/-- The `multipart/mixed` body of the open-revs decode scenario: one
item of type `multipart/related` holding a JSON sub-part and one
attachment sub-part of nine bytes. -/
def scenario1Stream : Bytes :=
  ("--:\r\nContent-Type: multipart/related;boundary=--:--\r\n\r\n" ++
   "----:--\r\nContent-Type: application/json\r\n\r\n" ++
   "\x7b\"_id\": \"foo\"\x7d\r\n" ++
   "----:--\r\nContent-Disposition: attachment; filename=\"att.txt\"\r\n" ++
   "Content-Type: text/plain\r\nContent-Length: 9\r\n\r\n" ++
   "some data\r\n----:----\r\n--:--").data

/-- Everything the open-revs scenario observes, in call order. -/
structure OpenRevsScenarioObs where
  doc1 : Option (List (String × String))
  attData : Option Bytes
  attSecond : Option Bytes
  attAtEof : Bool
  subSecondIsNone : Bool
  subAtEof : Bool
  finalDoc : Option (List (String × String))
  finalSubPresent : Bool
  outerAtEof : Bool
deriving DecidableEq, Repr

/-- Drive the open-revs reader through the scenario exactly as the
caller of the source would: first item, then the attachment part twice,
then the nested reader once more, then the outer reader once more —
threading the shared stream and the caller-held reader states. -/
def scenario1Run : Except String OpenRevsScenarioObs := do
  let m0 ← multipartReaderCreate ("multipart/mixed;boundary=:".data)
  let ((doc1, sub1), m1, s1) ← openRevsNext 200 m0 none scenario1Stream
  match sub1 with
  | some (SubReader.multi sub lastB) => do
    let (pr, sub2, s2) ← multipartNext 200 sub (lastB.map SubReader.part) s1
    match pr with
    | some (SubReader.part p) => do
      let (d1, p1, s3) ← bodyPartNext 200 p s2
      let (d2, p2, s4) ← bodyPartNext 200 p1 s3
      let (n2, sub3, s5) ← multipartNext 200 sub2 (some (SubReader.part p2)) s4
      let ((fd, fsub), m2, _) ← openRevsNext 200 m1
        (some (SubReader.multi sub3 (some p2))) s5
      Except.ok { doc1 := doc1, attData := d1, attSecond := d2, attAtEof := p2.atEof,
                  subSecondIsNone := n2.isNone, subAtEof := sub3.atEof,
                  finalDoc := fd, finalSubPresent := fsub.isSome, outerAtEof := m2.atEof }
    | _ => Except.error "scenario: expected an attachment body part"
  | _ => Except.error "scenario: expected a nested multipart sub-reader"

set_option maxHeartbeats 4000000 in
/-- C1: on the nested scenario body, `OpenRevsReader.next()` yields the
pair of the decoded document and a nested sub-reader (the successful
match on `SubReader.multi` in `scenario1Run`); the sub-reader yields
exactly one attachment part whose bytes are `some data`, a further part
read returns terminal with the part at end, a further sub-reader `next`
returns terminal with the sub-reader Exhausted, and a further outer
`next` returns the `(nil, nil)` pair with the outer reader Exhausted. -/
theorem openRevs_nested_scenario :
    scenario1Run = Except.ok
      { doc1 := some [("_id", "foo")],
        attData := some ("some data".data),
        attSecond := none,
        attAtEof := true,
        subSecondIsNone := true,
        subAtEof := true,
        finalDoc := none,
        finalSubPresent := false,
        outerAtEof := true } := by
  rfl

/-- The `multipart/mixed` body of the only-document scenario: one item
that is a bare JSON part, no nested attachments envelope. -/
def scenario2Stream : Bytes :=
  ("--:\r\nContent-Type: application/json\r\n\r\n\x7b\"_id\": \"foo\"\x7d\r\n--:--").data

/-- The first `(document, subreader)` pair the open-revs reader emits
on the only-document scenario body. -/
def scenario2FirstPair :
    Except String (Option (List (String × String)) × Option SubReader) := do
  let m0 ← multipartReaderCreate ("multipart/mixed;boundary=:".data)
  let ((d, sub), _, _) ← openRevsNext 200 m0 none scenario2Stream
  Except.ok (d, sub)

/-- C2, counterexample: on an open-revs item consisting of a single
JSON sub-part with no second sub-part, `next()` decodes the document but
the subreader component is not nil — it is the (body-part) reader
itself, so the claim's "paired with nil" fails at this input. -/
theorem openRevs_only_doc_counterexample :
    scenario2FirstPair.map (fun pr => pr.1) =
      Except.ok (some [("_id", "foo")]) ∧
    scenario2FirstPair.map (fun pr => pr.2.isNone) = Except.ok false ∧
    scenario2FirstPair.map (fun pr =>
      match pr.2 with
      | some (SubReader.part _) => true
      | _ => false) = Except.ok true := by
  exact ⟨rfl, rfl, rfl⟩

/-- Everything the only-document scenario observes, in call order. -/
structure OnlyDocScenarioObs where
  doc1 : Option (List (String × String))
  subNextIsNone : Bool
  subAtEof : Bool
  finalDoc : Option (List (String × String))
  finalSubPresent : Bool
  outerAtEof : Bool
deriving DecidableEq, Repr

/-- Drive the open-revs reader through the only-document scenario as
the caller of the source would. -/
def scenario2Run : Except String OnlyDocScenarioObs := do
  let m0 ← multipartReaderCreate ("multipart/mixed;boundary=:".data)
  let ((doc1, sub1), m1, s1) ← openRevsNext 200 m0 none scenario2Stream
  match sub1 with
  | some (SubReader.part p) => do
    let (n1, p1, s2) ← bodyPartNext 200 p s1
    let ((fd, fsub), m2, _) ← openRevsNext 200 m1 (some (SubReader.part p1)) s2
    Except.ok { doc1 := doc1, subNextIsNone := n1.isNone, subAtEof := p1.atEof,
                finalDoc := fd, finalSubPresent := fsub.isSome, outerAtEof := m2.atEof }
  | _ => Except.error "scenario: expected a plain body-part sub-reader"

/-- C2, amended: for an open-revs item consisting of a single JSON
sub-part with no second sub-part, `next()` returns the decoded document
paired with the item's own fully-consumed body-part reader (matched as
`SubReader.part` in `scenario2Run`), not nil; that subreader's `next()`
returns terminal with the part at end, and the following outer `next()`
returns the `(nil, nil)` pair with the outer reader Exhausted. -/
theorem openRevs_only_doc_scenario :
    scenario2Run = Except.ok
      { doc1 := some [("_id", "foo")],
        subNextIsNone := true,
        subAtEof := true,
        finalDoc := none,
        finalSubPresent := false,
        outerAtEof := true } := by
  rfl

/-- C6: once a multipart reader has reached the Exhausted state, every
further `next()` returns the terminal value again and leaves the
reader, the caller-held last part and the stream untouched. -/
theorem multipartNext_exhausted_idempotent (fuel : Nat) (m : MultipartReader)
    (last : Option SubReader) (s : Bytes) (h : m.atEof = true) :
    multipartNext fuel m last s = Except.ok (none, m, s) := by
  rw [multipartNext.eq_def]
  simp [h]

/-- Witness: a reader standing at Exhausted keeps answering terminal. -/
theorem multipartNext_exhausted_idempotent_witness :
    multipartNext 7 (⟨"--:".data, true, false, []⟩ : MultipartReader) none ("--:--".data) =
      Except.ok (none, (⟨"--:".data, true, false, []⟩ : MultipartReader), "--:--".data) := by
  exact multipartNext_exhausted_idempotent 7 _ none _ rfl

/-!
## The JSON to multipart response rewrite of Document.get_with_atts

Modelled from the spec: `Document.get_with_atts` of
`aiocouchdb/v1/document.py` is absent from `src/`; when the store
answers with a plain `application/json` response the method rewrites the
response in place into a synthetic `multipart/related` one, so that
`DocAttachmentsMultipartReader` decodes both response shapes alike.  The
rewritten shape is pinned by `DocumentTestCase.test_get_with_atts_json_hacks`:
the Content-Type header becomes `multipart/related;boundary=<fresh>`,
and the body becomes the opening boundary line, a part holding the
header line `Content-Type: application/json`, a blank line, the original
JSON payload, and the closing boundary line.
-/

/-- The rewritten Content-Type header value. -/
def getWithAttsRewriteCT (bnd : Bytes) : Bytes :=
  ("multipart/related;boundary=".data) ++ bnd

/-- The part's header line of the synthetic body. -/
def ctJsonHdr : Bytes :=
  "Content-Type: application/json".data

/-- The rewritten response body framing the JSON payload as the single
part of a `multipart/related` message. -/
def getWithAttsRewriteBody (bnd payload : Bytes) : Bytes :=
  dashdash ++ bnd ++ crlf ++ ctJsonHdr ++ crlf ++ crlf ++
    payload ++ crlf ++ dashdash ++ bnd ++ dashdash

/-- Decode a single-part multipart response: create the reader from the
Content-Type value, pull the first part, read its whole body, and pull
once more; reports the part's own content type, its body and whether
the reader then stands Exhausted. -/
def decodeSinglePart (fuel : Nat) (ctype body : Bytes) :
    Except String (Bytes × Bytes × Bool) := do
  let m0 ← multipartReaderCreate ctype
  let (subO, m1, s1) ← multipartNext fuel m0 none body
  match subO with
  | some (SubReader.part p) => do
    let (dataB, p1, s2) ← bodyPartRead fuel p s1
    let (n2, m2, _) ← multipartNext fuel m1 (some (SubReader.part p1)) s2
    match n2 with
    | none => Except.ok ((getHeaderB p.headers ("content-type".data)).getD [], dataB, m2.atEof)
    | some _ => Except.error "expected the terminal after the single part"
  | _ => Except.error "expected a plain body part"

/-- `takeWhile` runs through a satisfied block and stops at the first
failing element. -/
theorem takeWhileAllAppendStop (p : Char → Bool) (l₁ : Bytes) (c : Char) (l₂ : Bytes)
    (h1 : ∀ x ∈ l₁, p x = true) (hc : p c = false) :
    (l₁ ++ c :: l₂).takeWhile p = l₁ := by
  induction l₁ with
  | nil => simp [List.takeWhile, hc]
  | cons a as ih =>
    have ha := h1 a (by simp)
    simp [List.takeWhile, ha]
    exact ih (fun x hx => h1 x (by simp [hx]))

/-- `dropWhile` drops a satisfied block and stops at the first failing
element. -/
theorem dropWhileAllAppendStop (p : Char → Bool) (l₁ : Bytes) (c : Char) (l₂ : Bytes)
    (h1 : ∀ x ∈ l₁, p x = true) (hc : p c = false) :
    (l₁ ++ c :: l₂).dropWhile p = c :: l₂ := by
  induction l₁ with
  | nil => simp [List.dropWhile, hc]
  | cons a as ih =>
    have ha := h1 a (by simp)
    simp [List.dropWhile, ha]
    exact ih (fun x hx => h1 x (by simp [hx]))

/-- `dropWhile` keeps a list whose head (if any) fails the predicate. -/
theorem dropWhileEqSelfOfAllFalse (p : Char → Bool) (l : Bytes)
    (h : ∀ x ∈ l, p x = false) : l.dropWhile p = l := by
  cases l with
  | nil => rfl
  | cons a as => simp [List.dropWhile, h a (by simp)]

/-- Trailing CRLF disappears under `rstrip()`. -/
theorem rstripWSAppendCRLF (x : Bytes) :
    rstripWS (x ++ ['\r', '\n']) = rstripWS x := by
  simp [rstripWS, List.dropWhile]

/-- `rstrip()` keeps a list of non-whitespace characters. -/
theorem rstripWSEqSelfOfNoWS (x : Bytes) (h : ∀ c ∈ x, c.isWhitespace = false) :
    rstripWS x = x := by
  unfold rstripWS
  rw [dropWhileEqSelfOfAllFalse _ _ (fun c hc => h c (by simpa using hc))]
  simp

/-- `rstrip()` keeps anything ending in two dashes. -/
theorem rstripWSAppendDD (y : Bytes) :
    rstripWS (y ++ dashdash) = y ++ dashdash := by
  simp [rstripWS, dashdash, List.dropWhile]

/-- `rstrip(CRLF)` keeps anything ending in two dashes. -/
theorem rstripCRLFAppendDD (y : Bytes) :
    rstripCRLF (y ++ dashdash) = y ++ dashdash := by
  simp [rstripCRLF, dashdash, List.dropWhile]

/-- A line read stops at the first LF, keeping it. -/
theorem readlineBAppendNl (a b : Bytes) (h : '\n' ∉ a) :
    readlineB (a ++ '\n' :: b) = (a ++ ['\n'], b) := by
  induction a with
  | nil => simp [readlineB]
  | cons c cs ih =>
    have hc : ¬ c = '\n' := fun e => h (by simp [e])
    have ih' := ih (fun hm => h (by simp [hm]))
    simp [readlineB, hc, ih']

/-- A line read through an explicit CRLF pair. -/
theorem readlineBCRLF (a b : Bytes) (h : '\n' ∉ a) :
    readlineB (a ++ '\r' :: '\n' :: b) = (a ++ ['\r', '\n'], b) := by
  have h' : '\n' ∉ a ++ ['\r'] := by
    intro hm
    rcases List.mem_append.mp hm with hm | hm
    · exact h hm
    · simp at hm
  have := readlineBAppendNl (a ++ ['\r']) b h'
  simpa [List.append_assoc] using this

/-- Without any LF the whole remainder is the final line. -/
theorem readlineBNoNl (a : Bytes) (h : '\n' ∉ a) : readlineB a = (a, []) := by
  induction a with
  | nil => simp [readlineB]
  | cons c cs ih =>
    have hc : ¬ c = '\n' := fun e => h (by simp [e])
    have ih' := ih (fun hm => h (by simp [hm]))
    simp [readlineB, hc, ih']

/-- A token free of CR that does not start `p` does not start `p`
extended by the framing CRLF either. -/
theorem isPrefixOfAppendCRLFFalse (b p : Bytes) (hb : '\r' ∉ b)
    (h : b.isPrefixOf p = false) : b.isPrefixOf (p ++ ['\r', '\n']) = false := by
  induction b generalizing p with
  | nil => simp [List.isPrefixOf] at h
  | cons c bs ih =>
    cases p with
    | nil =>
      have hc : ¬ c = '\r' := fun e => hb (by simp [e])
      simp [List.isPrefixOf, hc]
    | cons d ps =>
      by_cases hcd : c = d
      · subst hcd
        have h' : bs.isPrefixOf ps = false := by
          simpa [List.isPrefixOf] using h
        simpa [List.isPrefixOf] using
          ih ps (fun hm => hb (by simp [hm])) h'
      · simp [List.isPrefixOf, hcd]

/-- Semicolon splitting of a semicolon-free tail. -/
theorem splitOnSemiAuxNoSemi (l : Bytes) : ∀ acc : Bytes, ';' ∉ l →
    splitOnSemiAux l acc = [acc.reverse ++ l] := by
  induction l with
  | nil => intro acc _; simp [splitOnSemiAux]
  | cons c cs ih =>
    intro acc h
    have hc : ¬ c = ';' := fun e => h (by simp [e])
    simp [splitOnSemiAux, hc]
    rw [ih (c :: acc) (fun hm => h (by simp [hm]))]
    simp

/-- Semicolon splitting around the first semicolon. -/
theorem splitOnSemiAuxSplit (l₁ : Bytes) : ∀ (acc l₂ : Bytes), ';' ∉ l₁ →
    splitOnSemiAux (l₁ ++ ';' :: l₂) acc =
      (acc.reverse ++ l₁) :: splitOnSemiAux l₂ [] := by
  induction l₁ with
  | nil => intro acc l₂ _; simp [splitOnSemiAux]
  | cons c cs ih =>
    intro acc l₂ h
    have hc : ¬ c = ';' := fun e => h (by simp [e])
    simp [splitOnSemiAux, hc]
    rw [ih (c :: acc) l₂ (fun hm => h (by simp [hm]))]
    simp

/-- Mime parameter value normalisation keeps a clean token. -/
theorem stripSpaceQuoteEqSelf (l : Bytes) (h1 : ' ' ∉ l) (h2 : '"' ∉ l) :
    stripSpaceQuote l = l := by
  have hall : ∀ c ∈ l, decide (c = ' ' ∨ c = '"') = false := by
    intro c hc
    have hc1 : ¬ c = ' ' := fun e => h1 (e ▸ hc)
    have hc2 : ¬ c = '"' := fun e => h2 (e ▸ hc)
    simp [hc1, hc2]
  unfold stripSpaceQuote
  rw [dropWhileEqSelfOfAllFalse _ _ hall]
  rw [dropWhileEqSelfOfAllFalse _ _ (fun c hc => hall c (by simpa using hc))]
  simp

/-- The rewritten Content-Type's main type is `multipart` whatever the
boundary token. -/
theorem mimeMainTypeRewriteLem (bnd : Bytes) :
    mimeMainType (getWithAttsRewriteCT bnd) = ("multipart".data) := by
  have h0 : getWithAttsRewriteCT bnd =
      ("multipart".data) ++ '/' :: (("related;boundary=".data) ++ bnd) := by
    have h1 : ("multipart/related;boundary=".data : Bytes) =
        ("multipart".data) ++ '/' :: ("related;boundary=".data) := by decide
    simp [getWithAttsRewriteCT, h1]
  rw [h0]
  unfold mimeMainType
  rw [takeWhileAllAppendStop _ _ _ _ (by decide) (by decide)]
  decide

/-- The rewritten Content-Type carries exactly the fresh boundary. -/
theorem boundaryParamRewriteLem (bnd : Bytes)
    (hbsemi : ';' ∉ bnd) (hbws : ∀ c ∈ bnd, c.isWhitespace = false)
    (hbq : '"' ∉ bnd) :
    boundaryParam (getWithAttsRewriteCT bnd) = some bnd := by
  have hbsp : ' ' ∉ bnd := by
    intro hm
    have := hbws ' ' hm
    simp [Char.isWhitespace] at this
  have h0 : getWithAttsRewriteCT bnd =
      ("multipart/related".data) ++ ';' :: (("boundary=".data) ++ bnd) := by
    have h1 : ("multipart/related;boundary=".data : Bytes) =
        ("multipart/related".data) ++ ';' :: ("boundary=".data) := by decide
    simp [getWithAttsRewriteCT, h1]
  have hsemitail : ';' ∉ ("boundary=".data : Bytes) ++ bnd := by
    intro hm
    rcases List.mem_append.mp hm with hm | hm
    · revert hm; decide
    · exact hbsemi hm
  unfold boundaryParam splitOnSemi
  rw [h0, splitOnSemiAuxSplit _ _ _ (by decide),
    splitOnSemiAuxNoSemi _ [] hsemitail]
  have hseg : segKeyValue (("boundary=".data : Bytes) ++ bnd) = ("boundary".data, bnd) := by
    have h2 : ("boundary=".data : Bytes) ++ bnd = ("boundary".data) ++ '=' :: bnd := by
      have h3 : ("boundary=".data : Bytes) = ("boundary".data) ++ ['='] := by decide
      simp [h3]
    rw [h2]
    simp only [segKeyValue]
    rw [takeWhileAllAppendStop _ _ _ _ (by decide) (by decide),
      dropWhileAllAppendStop _ _ _ _ (by decide) (by decide)]
    simp [stripSpaceQuoteEqSelf bnd hbsp hbq]
    decide
  simp [findBoundaryIn, hseg, segKeyValue]
  exact ⟨by decide, stripSpaceQuoteEqSelf bnd hbsp hbq⟩

/-- The rewritten Content-Type yields a fresh reader governed by the
fresh boundary. -/
theorem multipartReaderCreateRewriteLem (bnd : Bytes)
    (hbsemi : ';' ∉ bnd) (hbws : ∀ c ∈ bnd, c.isWhitespace = false)
    (hbq : '"' ∉ bnd) (hblen : bnd.length ≤ 70) :
    multipartReaderCreate (getWithAttsRewriteCT bnd) =
      Except.ok ⟨dashdash ++ bnd, false, true, []⟩ := by
  unfold multipartReaderCreate
  rw [mimeMainTypeRewriteLem, boundaryParamRewriteLem bnd hbsemi hbws hbq]
  simp [hblen]

/-- Taking a left block's length out of an append returns the block. -/
theorem takeLenAppendSelf (a b : Bytes) : (a ++ b).take a.length = a := by
  induction a with
  | nil => simp
  | cons c cs ih => simp [ih]

/-- Bind on a successful Except step. -/
@[simp] theorem exceptBindOk {α β : Type} (a : α) (f : α → Except String β) :
    (Except.ok a >>= f : Except String β) = f a := rfl

/-- No LF occurs in a boundary delimiter built from a whitespace-free
token. -/
theorem noNlInDelim (bnd : Bytes) (hbws : ∀ c ∈ bnd, c.isWhitespace = false) :
    ('\n' : Char) ∉ dashdash ++ bnd := by
  intro hm
  rcases List.mem_append.mp hm with hm | hm
  · revert hm; decide
  · have := hbws '\n' hm
    simp [Char.isWhitespace] at this

/-- No CR occurs in a boundary delimiter built from a whitespace-free
token. -/
theorem noCrInDelim (bnd : Bytes) (hbws : ∀ c ∈ bnd, c.isWhitespace = false) :
    ('\r' : Char) ∉ dashdash ++ bnd := by
  intro hm
  rcases List.mem_append.mp hm with hm | hm
  · revert hm; decide
  · have := hbws '\r' hm
    simp [Char.isWhitespace] at this

/-- Nothing in a boundary delimiter is whitespace. -/
theorem noWsInDelim (bnd : Bytes) (hbws : ∀ c ∈ bnd, c.isWhitespace = false) :
    ∀ c ∈ dashdash ++ bnd, c.isWhitespace = false := by
  intro c hc
  rcases List.mem_append.mp hc with hc | hc
  · have hcc : c = '-' := by simpa [dashdash] using hc
    subst hcc; decide
  · exact hbws c hc

/-- No LF occurs in a closing delimiter line built from a
whitespace-free token. -/
theorem noNlInClose (bnd : Bytes) (hbws : ∀ c ∈ bnd, c.isWhitespace = false) :
    ('\n' : Char) ∉ dashdash ++ bnd ++ dashdash := by
  intro hm
  simp [dashdash] at hm
  have := hbws '\n' hm
  simp [Char.isWhitespace] at this

/-- The boundary-scanning reader accepts the opening delimiter line at
the head of the stream and leaves its state untouched. -/
theorem firstBoundaryStepLem (f : Nat) (bnd tail : Bytes)
    (hbws : ∀ c ∈ bnd, c.isWhitespace = false) :
    multipartReadUntilFirstBoundary (f + 1)
      (⟨dashdash ++ bnd, false, true, []⟩ : MultipartReader)
      ((dashdash ++ bnd) ++ '\r' :: '\n' :: tail) =
      Except.ok ((⟨dashdash ++ bnd, false, true, []⟩ : MultipartReader), tail) := by
  have hrl := readlineBCRLF (dashdash ++ bnd) tail (noNlInDelim bnd hbws)
  simp only [List.append_assoc] at hrl
  have hstrip : rstripWS ((dashdash ++ bnd) ++ ['\r', '\n']) = dashdash ++ bnd := by
    rw [rstripWSAppendCRLF, rstripWSEqSelfOfNoWS _ (noWsInDelim bnd hbws)]
  simp only [List.append_assoc] at hstrip
  have hne : ¬ (dashdash ++ (bnd ++ ['\r', '\n'])) = ([] : Bytes) := by
    simp [dashdash]
  rw [multipartReadUntilFirstBoundary]
  simp [multipartReadlineU, popLastB, hrl, hstrip, hne]

/-- The header-block scan of the synthetic part reads the single
Content-Type line and the blank separator, leaving the payload. -/
theorem headersStepLem (f : Nat) (tail : Bytes) :
    multipartReadHeaders (f + 2) (ctJsonHdr ++ '\r' :: '\n' :: '\r' :: '\n' :: tail) [] =
      Except.ok ([(("Content-Type".data : Bytes), ("application/json".data : Bytes))],
        tail) := by
  have hrl := readlineBCRLF ctJsonHdr ('\r' :: '\n' :: tail) (by decide)
  simp only [List.append_assoc] at hrl
  have hrl2 : readlineB ('\r' :: '\n' :: tail) = (['\r', '\n'], tail) := by
    simp [readlineB]
  have hline : stripWS (ctJsonHdr ++ ['\r', '\n']) =
      ("Content-Type: application/json".data) := by decide
  simp only [List.append_assoc] at hline
  rw [multipartReadHeaders]
  simp only [hrl, hline]
  rw [if_neg (by decide)]
  rw [show parseHeaderLine ("Content-Type: application/json".data) =
    Except.ok (("Content-Type".data : Bytes), ("application/json".data : Bytes)) from by rfl]
  simp only [exceptBindOk]
  rw [multipartReadHeaders]
  simp [hrl2, stripWS, rstripWS]

/-- Reading the synthetic part's whole body yields exactly the JSON
payload, consumes the framing CRLF, and pushes the closing delimiter
line back for the enclosing reader. -/
theorem bodyReadStepLem (f : Nat) (bnd payload : Bytes) (hdrs : List (Bytes × Bytes))
    (hbws : ∀ c ∈ bnd, c.isWhitespace = false)
    (hpnl : '\n' ∉ payload)
    (hps : (dashdash ++ bnd).isPrefixOf payload = false) :
    bodyPartRead (f + 2)
      (⟨dashdash ++ bnd, hdrs, none, 0, false, []⟩ : BodyPartReader)
      (payload ++ '\r' :: '\n' :: (dashdash ++ bnd ++ dashdash)) =
      Except.ok (payload,
        (⟨dashdash ++ bnd, hdrs, none, 0, true,
          [dashdash ++ bnd ++ dashdash]⟩ : BodyPartReader), []) := by
  have hrl1 := readlineBCRLF payload (dashdash ++ bnd ++ dashdash) hpnl
  simp only [List.append_assoc] at hrl1
  have hrl2 := readlineBNoNl (dashdash ++ bnd ++ dashdash) (noNlInClose bnd hbws)
  simp only [List.append_assoc] at hrl2
  have hpref1 : (dashdash ++ bnd).isPrefixOf (payload ++ ['\r', '\n']) = false :=
    isPrefixOfAppendCRLFFalse _ _ (noCrInDelim bnd hbws) hps
  have hpref2 : (dashdash ++ bnd).isPrefixOf (dashdash ++ (bnd ++ dashdash)) = true := by
    rw [← List.append_assoc]
    exact isPrefixOfAppendSelf (dashdash ++ bnd) dashdash
  have htake := takeLenAppendSelf payload (['\r', '\n'] : Bytes)
  have hsline : rstripCRLF (dashdash ++ (bnd ++ dashdash)) =
      dashdash ++ (bnd ++ dashdash) := by
    have := rstripCRLFAppendDD (dashdash ++ bnd)
    simpa [List.append_assoc] using this
  have hnea : ¬ (dashdash ++ (bnd ++ dashdash)) = dashdash ++ bnd := by
    intro e
    have hlen := congrArg List.length e
    simp [dashdash] at hlen
  simp [bodyPartRead, bodyPartReadLinesLoop, bodyPartReadline,
    hrl1, hrl2, hpref1, hpref2, htake, hsline, hnea]
  rw [bodyPartReadLinesLoop.eq_def]
  simp

/-- Dispatching a part whose only header is the JSON Content-Type
yields a plain body-part reader without a declared length. -/
theorem getPartReaderCTJson (m : MultipartReader) :
    multipartGetPartReader m
      [(("Content-Type".data : Bytes), ("application/json".data : Bytes))] =
      Except.ok (SubReader.part
        ⟨m.boundary, [(("Content-Type".data : Bytes), ("application/json".data : Bytes))],
          none, 0, false, []⟩) := by
  unfold multipartGetPartReader
  rw [show ((getHeaderB [(("Content-Type".data : Bytes), ("application/json".data : Bytes))]
      ("content-type".data)).getD []) = ("application/json".data : Bytes) from by rfl]
  rw [if_neg (by decide)]
  rw [show contentLengthOf
      [(("Content-Type".data : Bytes), ("application/json".data : Bytes))] =
      Except.ok none from by rfl]
  rfl

/-- First pull on the rewritten body: one body part carrying the JSON
Content-Type header, the reader past its opening delimiter. -/
theorem nextFirstStepLem (f : Nat) (bnd payload : Bytes)
    (hbws : ∀ c ∈ bnd, c.isWhitespace = false) :
    multipartNext (f + 2) (⟨dashdash ++ bnd, false, true, []⟩ : MultipartReader) none
      (getWithAttsRewriteBody bnd payload) =
      Except.ok (some (SubReader.part
          ⟨dashdash ++ bnd,
            [(("Content-Type".data : Bytes), ("application/json".data : Bytes))],
            none, 0, false, []⟩),
        (⟨dashdash ++ bnd, false, false, []⟩ : MultipartReader),
        payload ++ '\r' :: '\n' :: (dashdash ++ bnd ++ dashdash)) := by
  have hfb := firstBoundaryStepLem (f + 1) bnd
      (ctJsonHdr ++ '\r' :: '\n' :: '\r' :: '\n' ::
        (payload ++ '\r' :: '\n' :: (dashdash ++ bnd ++ dashdash))) hbws
  simp only [List.append_assoc] at hfb
  have hhd := headersStepLem f (payload ++ '\r' :: '\n' :: (dashdash ++ bnd ++ dashdash))
  simp only [List.append_assoc] at hhd
  have hgp := getPartReaderCTJson (⟨dashdash ++ bnd, false, false, []⟩ : MultipartReader)
  have hbody : getWithAttsRewriteBody bnd payload =
      (dashdash ++ bnd) ++ '\r' :: '\n' ::
        (ctJsonHdr ++ '\r' :: '\n' :: '\r' :: '\n' ::
          (payload ++ '\r' :: '\n' :: (dashdash ++ bnd ++ dashdash))) := by
    simp [getWithAttsRewriteBody, crlf, List.append_assoc]
  rw [hbody, multipartNext.eq_def]
  simp only [List.append_assoc] at hfb ⊢
  simp [multipartMaybeReleaseLast, hfb, hhd, hgp]

/-- Second pull on the rewritten body: the pushed-back closing
delimiter line is taken over from the finished part and ends the
reader. -/
theorem nextTerminalStepLem (f : Nat) (bnd : Bytes) (hdrs : List (Bytes × Bytes)) :
    multipartNext (f + 2) (⟨dashdash ++ bnd, false, false, []⟩ : MultipartReader)
      (some (SubReader.part
        (⟨dashdash ++ bnd, hdrs, none, 0, true,
          [dashdash ++ bnd ++ dashdash]⟩ : BodyPartReader))) [] =
      Except.ok (none, (⟨dashdash ++ bnd, true, false, []⟩ : MultipartReader), []) := by
  have hsline : rstripWS (dashdash ++ (bnd ++ dashdash)) = dashdash ++ (bnd ++ dashdash) := by
    have := rstripWSAppendDD (dashdash ++ bnd)
    simpa [List.append_assoc] using this
  have hnea : ¬ (dashdash ++ (bnd ++ dashdash)) = dashdash ++ bnd := by
    intro e
    have hlen := congrArg List.length e
    simp [dashdash] at hlen
  rw [multipartNext.eq_def]
  simp [multipartMaybeReleaseLast, SubReader.atEofS, SubReader.unreadS,
    multipartReadBoundary, multipartReadlineU, popLastB, hsline, hnea]

/-- C8: when `get_with_atts` receives an `application/json` response it
rewrites it in place into a synthetic `multipart/related` response —
the Content-Type is replaced by a `multipart/related` value carrying
the fresh boundary, and the JSON payload is framed as the single part
with header `Content-Type: application/json` between the opening and
closing boundary lines — and the multipart reader decodes the rewritten
response exactly as a genuine single-part `multipart/related` one: one
part typed `application/json` whose bytes are the original payload,
then the terminal with the reader Exhausted. -/
theorem get_with_atts_json_rewrite (f : Nat) (bnd payload : Bytes)
    (hbsemi : ';' ∉ bnd) (hbws : ∀ c ∈ bnd, c.isWhitespace = false)
    (hbq : '"' ∉ bnd) (hblen : bnd.length ≤ 70)
    (hpnl : '\n' ∉ payload)
    (hps : (dashdash ++ bnd).isPrefixOf payload = false) :
    (("multipart/related".data : Bytes).isPrefixOf (getWithAttsRewriteCT bnd) = true) ∧
    decodeSinglePart (f + 2) (getWithAttsRewriteCT bnd) (getWithAttsRewriteBody bnd payload) =
      Except.ok (("application/json".data : Bytes), payload, true) := by
  constructor
  · have h1 : getWithAttsRewriteCT bnd =
        ("multipart/related".data) ++ ((";boundary=".data) ++ bnd) := by
      have h2 : ("multipart/related;boundary=".data : Bytes) =
          ("multipart/related".data) ++ (";boundary=".data) := by decide
      simp [getWithAttsRewriteCT, h2]
    rw [h1]
    exact isPrefixOfAppendSelf _ _
  · have hnext1 := nextFirstStepLem f bnd payload hbws
    have hbr := bodyReadStepLem f bnd payload
      [(("Content-Type".data : Bytes), ("application/json".data : Bytes))] hbws hpnl hps
    have hnext2 := nextTerminalStepLem f bnd
      [(("Content-Type".data : Bytes), ("application/json".data : Bytes))]
    unfold decodeSinglePart
    rw [multipartReaderCreateRewriteLem bnd hbsemi hbws hbq hblen]
    simp only [exceptBindOk]
    rw [hnext1]
    simp only [exceptBindOk]
    rw [hbr]
    simp only [exceptBindOk]
    rw [hnext2]
    simp only [exceptBindOk]
    rw [show (getHeaderB
        [(("Content-Type".data : Bytes), ("application/json".data : Bytes))]
        ("content-type".data)).getD [] = ("application/json".data : Bytes) from by rfl]

/-- Witness: the rewrite decodes back to the original payload at a
concrete hex boundary and a concrete compact JSON document. -/
theorem get_with_atts_json_rewrite_witness :
    (("multipart/related".data : Bytes).isPrefixOf
      (getWithAttsRewriteCT ("e4c3f8".data)) = true) ∧
    decodeSinglePart (198 + 2) (getWithAttsRewriteCT ("e4c3f8".data))
      (getWithAttsRewriteBody ("e4c3f8".data) ("\x7b\"_id\": \"foo\"\x7d".data)) =
      Except.ok (("application/json".data : Bytes), ("\x7b\"_id\": \"foo\"\x7d".data), true) :=
  get_with_atts_json_rewrite 198 ("e4c3f8".data) ("\x7b\"_id\": \"foo\"\x7d".data)
    (by decide) (by decide) (by decide) (by decide) (by decide) (by decide)

/-- The governing Content-Type of an open-revs envelope with the given
boundary token, as the store sends it (`multipart/mixed`). -/
def openRevsMixedCT (bnd : Bytes) : Bytes :=
  ("multipart/mixed;boundary=".data) ++ bnd

/-- The `multipart/mixed` body of an open-revs response holding exactly
one item that is a bare JSON part (no nested attachments envelope):
opening delimiter line, the JSON Content-Type header line, a blank
line, the document payload, and the closing delimiter line. -/
def openRevsOnlyDocBody (bnd payload : Bytes) : Bytes :=
  dashdash ++ bnd ++ crlf ++ ctJsonHdr ++ crlf ++ crlf ++
    payload ++ '\r' :: '\n' :: (dashdash ++ bnd ++ dashdash)

/-- The only-doc envelope carries the same framing shape as the
synthetic attachment rewrite body. -/
theorem openRevsOnlyDocBodyEq (bnd payload : Bytes) :
    openRevsOnlyDocBody bnd payload = getWithAttsRewriteBody bnd payload := by
  simp [openRevsOnlyDocBody, getWithAttsRewriteBody, crlf, List.append_assoc]

/-- The mixed envelope's main type is `multipart` whatever the boundary
token. -/
theorem mimeMainTypeMixedLem (bnd : Bytes) :
    mimeMainType (openRevsMixedCT bnd) = ("multipart".data) := by
  have h0 : openRevsMixedCT bnd =
      ("multipart".data) ++ '/' :: (("mixed;boundary=".data) ++ bnd) := by
    have h1 : ("multipart/mixed;boundary=".data : Bytes) =
        ("multipart".data) ++ '/' :: ("mixed;boundary=".data) := by decide
    simp [openRevsMixedCT, h1]
  rw [h0]
  unfold mimeMainType
  rw [takeWhileAllAppendStop _ _ _ _ (by decide) (by decide)]
  decide

/-- The mixed envelope's Content-Type carries exactly its boundary
token. -/
theorem boundaryParamMixedLem (bnd : Bytes)
    (hbsemi : ';' ∉ bnd) (hbws : ∀ c ∈ bnd, c.isWhitespace = false)
    (hbq : '"' ∉ bnd) :
    boundaryParam (openRevsMixedCT bnd) = some bnd := by
  have hbsp : ' ' ∉ bnd := by
    intro hm
    have := hbws ' ' hm
    simp [Char.isWhitespace] at this
  have h0 : openRevsMixedCT bnd =
      ("multipart/mixed".data) ++ ';' :: (("boundary=".data) ++ bnd) := by
    have h1 : ("multipart/mixed;boundary=".data : Bytes) =
        ("multipart/mixed".data) ++ ';' :: ("boundary=".data) := by decide
    simp [openRevsMixedCT, h1]
  have hsemitail : ';' ∉ ("boundary=".data : Bytes) ++ bnd := by
    intro hm
    rcases List.mem_append.mp hm with hm | hm
    · revert hm; decide
    · exact hbsemi hm
  unfold boundaryParam splitOnSemi
  rw [h0, splitOnSemiAuxSplit _ _ _ (by decide),
    splitOnSemiAuxNoSemi _ [] hsemitail]
  have hseg : segKeyValue (("boundary=".data : Bytes) ++ bnd) = ("boundary".data, bnd) := by
    have h2 : ("boundary=".data : Bytes) ++ bnd = ("boundary".data) ++ '=' :: bnd := by
      have h3 : ("boundary=".data : Bytes) = ("boundary".data) ++ ['='] := by decide
      simp [h3]
    rw [h2]
    simp only [segKeyValue]
    rw [takeWhileAllAppendStop _ _ _ _ (by decide) (by decide),
      dropWhileAllAppendStop _ _ _ _ (by decide) (by decide)]
    simp [stripSpaceQuoteEqSelf bnd hbsp hbq]
    decide
  simp [findBoundaryIn, hseg, segKeyValue]
  exact ⟨by decide, stripSpaceQuoteEqSelf bnd hbsp hbq⟩

/-- The mixed envelope's Content-Type yields a fresh reader governed by
its boundary token. -/
theorem multipartReaderCreateMixedLem (bnd : Bytes)
    (hbsemi : ';' ∉ bnd) (hbws : ∀ c ∈ bnd, c.isWhitespace = false)
    (hbq : '"' ∉ bnd) (hblen : bnd.length ≤ 70) :
    multipartReaderCreate (openRevsMixedCT bnd) =
      Except.ok ⟨dashdash ++ bnd, false, true, []⟩ := by
  unfold multipartReaderCreate
  rw [mimeMainTypeMixedLem, boundaryParamMixedLem bnd hbsemi hbws hbq]
  simp [hblen]

/-- A fully consumed body part answers terminal to every further
`next()` and stays put. -/
theorem bodyPartNextAtEof (fuel : Nat) (p : BodyPartReader) (s : Bytes)
    (h : p.atEof = true) : bodyPartNext fuel p s = Except.ok (none, p, s) := by
  simp [bodyPartNext, bodyPartRead, h]

/-- The state of the only-doc item's body-part reader once the caller
holds it: fully consumed, with the closing delimiter line pushed back
for the enclosing reader. -/
def onlyDocFinalPart (bnd : Bytes) : BodyPartReader :=
  ⟨dashdash ++ bnd,
    [(("Content-Type".data : Bytes), ("application/json".data : Bytes))],
    none, 0, true, [dashdash ++ bnd ++ dashdash]⟩

/-- C2, amended: for every open-revs item consisting of a single JSON
sub-part with no second sub-part — any boundary token and any LF-free
document payload not starting with the delimiter — `next()` returns the
decoded document paired with that item's own fully-consumed body-part
reader, not nil; that subreader is at end-of-stream and its `next()`
returns terminal, and the following outer `next()` returns the
`(nil, nil)` pair with the outer reader Exhausted. -/
theorem openRevs_only_doc_spec (f : Nat) (bnd payload : Bytes)
    (hbsemi : ';' ∉ bnd) (hbws : ∀ c ∈ bnd, c.isWhitespace = false)
    (hbq : '"' ∉ bnd) (hblen : bnd.length ≤ 70)
    (hpnl : '\n' ∉ payload)
    (hps : (dashdash ++ bnd).isPrefixOf payload = false) :
    multipartReaderCreate (openRevsMixedCT bnd) =
      Except.ok ⟨dashdash ++ bnd, false, true, []⟩ ∧
    openRevsNext (f + 2) (⟨dashdash ++ bnd, false, true, []⟩ : MultipartReader) none
      (openRevsOnlyDocBody bnd payload) =
      Except.ok ((parseJsonFlat payload, some (SubReader.part (onlyDocFinalPart bnd))),
        (⟨dashdash ++ bnd, false, false, []⟩ : MultipartReader), []) ∧
    (onlyDocFinalPart bnd).atEof = true ∧
    bodyPartNext (f + 2) (onlyDocFinalPart bnd) [] =
      Except.ok (none, onlyDocFinalPart bnd, []) ∧
    openRevsNext (f + 2) (⟨dashdash ++ bnd, false, false, []⟩ : MultipartReader)
      (some (SubReader.part (onlyDocFinalPart bnd))) [] =
      Except.ok ((none, none), (⟨dashdash ++ bnd, true, false, []⟩ : MultipartReader), []) := by
  refine ⟨multipartReaderCreateMixedLem bnd hbsemi hbws hbq hblen, ?_, rfl,
    bodyPartNextAtEof _ _ _ rfl, ?_⟩
  · have hnext1 := nextFirstStepLem f bnd payload hbws
    have hbr := bodyReadStepLem f bnd payload
      [(("Content-Type".data : Bytes), ("application/json".data : Bytes))] hbws hpnl hps
    unfold openRevsNext
    rw [openRevsOnlyDocBodyEq, hnext1]
    simp only [exceptBindOk]
    simp at hbr
    simp [hbr, onlyDocFinalPart]
  · have hnext2 := nextTerminalStepLem f bnd
      [(("Content-Type".data : Bytes), ("application/json".data : Bytes))]
    unfold openRevsNext
    simp only [onlyDocFinalPart]
    rw [hnext2]
    simp

/-- Witness: the universal only-doc statement at the unit test's exact
bytes — boundary token `:` and payload `b'\x7b"_id": "foo"\x7d'`, the
stream of `test_next_only_doc`. -/
theorem openRevs_only_doc_spec_witness :
    multipartReaderCreate (openRevsMixedCT (":".data)) =
      Except.ok ⟨dashdash ++ (":".data), false, true, []⟩ ∧
    openRevsNext (198 + 2)
      (⟨dashdash ++ (":".data), false, true, []⟩ : MultipartReader) none
      (openRevsOnlyDocBody (":".data) ("\x7b\"_id\": \"foo\"\x7d".data)) =
      Except.ok ((parseJsonFlat ("\x7b\"_id\": \"foo\"\x7d".data),
          some (SubReader.part (onlyDocFinalPart (":".data)))),
        (⟨dashdash ++ (":".data), false, false, []⟩ : MultipartReader), []) ∧
    (onlyDocFinalPart (":".data)).atEof = true ∧
    bodyPartNext (198 + 2) (onlyDocFinalPart (":".data)) [] =
      Except.ok (none, onlyDocFinalPart (":".data), []) ∧
    openRevsNext (198 + 2)
      (⟨dashdash ++ (":".data), false, false, []⟩ : MultipartReader)
      (some (SubReader.part (onlyDocFinalPart (":".data)))) [] =
      Except.ok ((none, none),
        (⟨dashdash ++ (":".data), true, false, []⟩ : MultipartReader), []) :=
  openRevs_only_doc_spec 198 (":".data) ("\x7b\"_id\": \"foo\"\x7d".data)
    (by decide) (by decide) (by decide) (by decide) (by decide) (by decide)
